import Mathlib

/-!
Verification of Project Flume's producer (src/producer/producer.py).

Shallow embedding of the incremental-fetch / watermark / deduplication /
quality-filter engine in `producer.py`. Time instants are modelled as `Int`
minutes (a `timedelta(days = d)` becomes `d * 1440` minutes). Timestamp
strings are modelled by `TStr`: either a string that fails every parse
format (`bad`) or one that parses to a given instant (`iso t`). Python
falsy values (`None`, empty string) that the code tests with `if not x`
are encoded as `Option.none`. Exceptions that escape a function are
modelled with `Except Unit`.
-/

namespace Flume

/-- Environment-sourced configuration (module-level constants in the code),
with the defaults of `producer.py` lines 26-36. -/
structure Config where
  DEFAULT_INITIAL_LOOKBACK_MIN : Int
  CLIMATE_HOURLY_LOOKBACK_DAYS : Int
  MIN_QA_THRESHOLD : Int
  MAX_FUTURE_DAYS : Int
  INCREMENTAL_OVERLAP_MIN : Int
deriving DecidableEq

/-- The defaults from the environment block of `producer.py`. -/
def defaultConfig : Config :=
  { DEFAULT_INITIAL_LOOKBACK_MIN := 60
    CLIMATE_HOURLY_LOOKBACK_DAYS := 7
    MIN_QA_THRESHOLD := 0
    MAX_FUTURE_DAYS := 1
    INCREMENTAL_OVERLAP_MIN := 15 }

/-- A timestamp string: `bad` fails the ISO parse and every fallback format
(lines 70-84), `iso t` parses to the instant `t` (in minutes, UTC). -/
inductive TStr where
  | bad : TStr
  | iso : Int → TStr
deriving DecidableEq

/-- Lines 46-62 `validate_timestamp`: reject instants more than
`MAX_FUTURE_DAYS` in the future or more than 365 days in the past,
relative to wall-clock `now`. -/
def validate_timestamp (cfg : Config) (now : Int) (dt : Int) : Bool :=
  if dt > now + cfg.MAX_FUTURE_DAYS * 1440 then false
  else if dt < now - 365 * 1440 then false
  else true

/-- Lines 64-89 `parse_iso_to_utc`: absent/falsy input gives `none`,
an unparsable string gives `none`, a parsed instant that fails
`validate_timestamp` gives `none`, otherwise the instant. -/
def parse_iso_to_utc (cfg : Config) (now : Int) (s : Option TStr) : Option Int :=
  match s with
  | none => none
  | some TStr.bad => none
  | some (TStr.iso t) => if validate_timestamp cfg now t then some t else none

/-- The three data sources dispatched on by name strings in the code. -/
inductive SourceName where
  | swob
  | hydrometric
  | climate_hourly
deriving DecidableEq

/-- The property fields of a feature that `producer.py` reads. Each string
field is `Option`-valued with `none` standing for absent-or-falsy.
`props_hash_trunc` stands for the opaque value `hash(str(props)[:100])`
used to manufacture a pseudo station id (line 117). -/
structure Props where
  date_tm_value : Option TStr
  obs_date_tm : Option TStr
  DATETIME : Option TStr
  UTC_DATE : Option TStr
  LOCAL_DATE : Option TStr
  processed_date_tm : Option TStr
  tc_id_value : Option String
  msc_id_value : Option String
  STATION_NUMBER : Option String
  CLIMATE_IDENTIFIER : Option String
  air_temp_qa : Option Int
  rel_hum_qa : Option Int
  stn_pres_qa : Option Int
  props_hash_trunc : String
deriving DecidableEq

/-- A `Props` value with every field absent, for building concrete features. -/
def emptyProps : Props :=
  { date_tm_value := none
    obs_date_tm := none
    DATETIME := none
    UTC_DATE := none
    LOCAL_DATE := none
    processed_date_tm := none
    tc_id_value := none
    msc_id_value := none
    STATION_NUMBER := none
    CLIMATE_IDENTIFIER := none
    air_temp_qa := none
    rel_hum_qa := none
    stn_pres_qa := none
    props_hash_trunc := "" }

/-- One GeoJSON feature as the producer sees it: the raw `id` value
(`none` when the field is absent or falsy) and its properties. -/
structure Feature where
  id : Option String
  props : Props
deriving DecidableEq

/-- Python `a or b` on two option-encoded falsy-able values. -/
def pyOr {α : Type} (a b : Option α) : Option α :=
  match a with
  | none => b
  | some x => some x

/-- Lines 91-104 `get_observation_timestamp`: source-specific timestamp
field with `processed_date_tm` fallback, then parse/validate. -/
def get_observation_timestamp (cfg : Config) (now : Int) (name : SourceName)
    (props : Props) : Option Int :=
  let ts1 : Option TStr :=
    match name with
    | SourceName.swob => pyOr props.date_tm_value props.obs_date_tm
    | SourceName.hydrometric => props.DATETIME
    | SourceName.climate_hourly => pyOr props.UTC_DATE props.LOCAL_DATE
  let ts2 : Option TStr := pyOr ts1 props.processed_date_tm
  parse_iso_to_utc cfg now ts2

/-- Lines 106-119 `get_station_id`: source-specific station field, falling
back to the feature id, then to a derived pseudo-identifier. -/
def get_station_id (name : SourceName) (props : Props)
    (feat_id : Option String) : String :=
  let station_key : Option String :=
    match name with
    | SourceName.swob => pyOr props.tc_id_value props.msc_id_value
    | SourceName.hydrometric => props.STATION_NUMBER
    | SourceName.climate_hourly => props.CLIMATE_IDENTIFIER
  match station_key with
  | some s => s
  | none =>
    match feat_id with
    | some fid => fid
    | none => "unknown_" ++ props.props_hash_trunc

/-- One quality-annotation code check inside the loop of lines 127-136:
absent code passes, a present code fails iff it is below the threshold. -/
def qa_passes (cfg : Config) (qa : Option Int) : Bool :=
  match qa with
  | none => true
  | some v => !(decide (v < cfg.MIN_QA_THRESHOLD))

/-- Lines 121-138 `is_high_quality_data`: non-swob sources always pass;
swob checks the three critical fields in order. -/
def is_high_quality_data (cfg : Config) (name : SourceName) (props : Props) : Bool :=
  if name ≠ SourceName.swob then true
  else
    qa_passes cfg props.air_temp_qa &&
    qa_passes cfg props.rel_hum_qa &&
    qa_passes cfg props.stn_pres_qa

/-- The run-metadata dictionary written at lines 262-266 / 356-364.
Fields written only on the non-empty path are `Option`-valued. The
wall-clock `run_duration_seconds` entry is not modelled. -/
structure RunMetadata where
  features_fetched : Nat
  features_new : Nat
  features_rejected_quality : Option Nat
  features_rejected_timestamp : Option Nat
  oldest_observation : Option TStr
  newest_observation : Option TStr
deriving DecidableEq

/-- One source's slice of the persisted state JSON (section §3 of the
design: `IngestionState`). Stored instants are strings (`TStr`), re-parsed
on every use exactly as the code does. A missing sub-dict is the same as
this structure with every field empty, matching the code's use of
`.get`/`.setdefault` with empty defaults. -/
structure SourceState where
  global_last_processed_dt : Option TStr
  per_station : List (String × TStr)
  last_run_timestamp : Option Int
  stations_tracked : Option Nat
  run_metadata : Option RunMetadata
deriving DecidableEq

/-- The empty sub-state (`state.get(name, ...)` miss). -/
def emptySourceState : SourceState :=
  { global_last_processed_dt := none
    per_station := []
    last_run_timestamp := none
    stations_tracked := none
    run_metadata := none }

/-- Python dict assignment `ps[k] = v` on the association-list model of
`per_station`: replace the binding of `k` in place, or append it. -/
def setStation (ps : List (String × TStr)) (k : String) (v : TStr) :
    List (String × TStr) :=
  match ps with
  | [] => [(k, v)]
  | (k', v') :: rest =>
    if k' == k then (k, v) :: rest else (k', v') :: setStation rest k v

/-- The mutable locals of the per-feature loop of lines 269-326. -/
structure LoopState where
  seen_ids : List (Option String)
  per_station : List (String × TStr)
  new_features : List Feature
  max_seen : Int
  rejected_quality_count : Nat
  rejected_timestamp_count : Nat
  min_obs : Option Int
  max_obs : Option Int
deriving DecidableEq

/-- Loop locals at entry to the per-feature loop (lines 269-278):
`max_seen_dt` starts at the fetch-window start. -/
def initLoop (ps : List (String × TStr)) (fetch_start : Int) : LoopState :=
  { seen_ids := []
    per_station := ps
    new_features := []
    max_seen := fetch_start
    rejected_quality_count := 0
    rejected_timestamp_count := 0
    min_obs := none
    max_obs := none }

/-- Lines 321-324: the per-station watermark update on inclusion.
When the stored string for the station exists but re-parses to `None`,
the comparison `None < obs_dt` raises a `TypeError`, modelled as
`Except.error`. The `if st_key` truthiness guard is the emptiness test. -/
def updateStation (cfg : Config) (now : Int) (ps : List (String × TStr))
    (k : String) (t : Int) : Except Unit (List (String × TStr)) :=
  if k = "" then Except.ok ps
  else
    match List.lookup k ps with
    | none => Except.ok (setStation ps k (TStr.iso t))
    | some existing =>
      match parse_iso_to_utc cfg now (some existing) with
      | none => Except.error ()
      | some e =>
        if e < t then Except.ok (setStation ps k (TStr.iso t)) else Except.ok ps

/-- One iteration of the per-feature loop, lines 280-326: batch dedup on the
raw feature id, station resolution, timestamp parse/validate, strict
greater-than inclusion against the station watermark, quality veto, then
watermark advancement. -/
def step (cfg : Config) (now : Int) (name : SourceName) (ls : LoopState)
    (feat : Feature) : Except Unit LoopState :=
  if feat.id ∈ ls.seen_ids then Except.ok ls
  else
    let seen' := feat.id :: ls.seen_ids
    let st_key := get_station_id name feat.props feat.id
    match get_observation_timestamp cfg now name feat.props with
    | none =>
      Except.ok { ls with
        seen_ids := seen'
        rejected_timestamp_count := ls.rejected_timestamp_count + 1 }
    | some t =>
      let minObs' : Option Int :=
        match ls.min_obs with
        | none => some t
        | some m => if t < m then some t else some m
      let maxObs' : Option Int :=
        match ls.max_obs with
        | none => some t
        | some m => if t > m then some t else some m
      let last_station_dt : Option Int :=
        match List.lookup st_key ls.per_station with
        | none => none
        | some s => parse_iso_to_utc cfg now (some s)
      let inc0 : Bool :=
        match last_station_dt with
        | none => true
        | some l => decide (t > l)
      let hq := is_high_quality_data cfg name feat.props
      let inc := inc0 && hq
      let rejQ' := if inc0 && !hq then ls.rejected_quality_count + 1
                   else ls.rejected_quality_count
      if inc then
        match updateStation cfg now ls.per_station st_key t with
        | Except.error e => Except.error e
        | Except.ok ps' =>
          Except.ok
            { seen_ids := seen'
              per_station := ps'
              new_features := ls.new_features ++ [feat]
              max_seen := if t > ls.max_seen then t else ls.max_seen
              rejected_quality_count := rejQ'
              rejected_timestamp_count := ls.rejected_timestamp_count
              min_obs := minObs'
              max_obs := maxObs' }
      else
        Except.ok { ls with
          seen_ids := seen'
          rejected_quality_count := rejQ'
          min_obs := minObs'
          max_obs := maxObs' }

/-- The whole per-feature loop (`for feat in features`, lines 280-326). -/
def processFeatures (cfg : Config) (now : Int) (name : SourceName)
    (ls : LoopState) : List Feature → Except Unit LoopState
  | [] => Except.ok ls
  | f :: fs =>
    match step cfg now name ls f with
    | Except.ok ls' => processFeatures cfg now name ls' fs
    | Except.error e => Except.error e

/-- Lines 216-247: derivation of the fetch-window start. The code's
climate-hourly and real-time branches are syntactically separate but do
the same thing when a prior watermark string exists (watermark minus the
overlap buffer); they differ only in the no-prior-state lookback. A prior
watermark string that fails to re-parse makes `last_global_dt` `None` and
the subtraction raises a `TypeError`, modelled as `Except.error`. -/
def fetch_window_start (cfg : Config) (now : Int) (name : SourceName)
    (st : SourceState) : Except Unit Int :=
  match st.global_last_processed_dt with
  | some s =>
    match parse_iso_to_utc cfg now (some s) with
    | some w => Except.ok (w - cfg.INCREMENTAL_OVERLAP_MIN)
    | none => Except.error ()
  | none =>
    Except.ok
      (if name = SourceName.climate_hourly
       then now - cfg.CLIMATE_HOURLY_LOOKBACK_DAYS * 1440
       else now - cfg.DEFAULT_INITIAL_LOOKBACK_MIN)

/-- Lines 208-370 `process_endpoint` on one source's sub-state.
`fetcher` stands for `fetch_features_with_paging` applied to the computed
window start: `Except.error` is a raised (non-HTTP) exception, which the
code catches at lines 252-256 and returns the state unchanged. `uploadOk`
models the delta upload `s3.put_object` at line 346, which is outside any
try block: when it raises (`uploadOk = false` with a non-empty delta) the
exception escapes `process_endpoint`. The Python function receives and
returns the full state dict but reads and writes only `state[name]`, so it
is modelled on the sub-state. -/
def process_endpoint (cfg : Config) (now : Int)
    (fetcher : Int → Except Unit (List Feature)) (uploadOk : Bool)
    (name : SourceName) (st : SourceState) : Except Unit SourceState :=
  match fetch_window_start cfg now name st with
  | Except.error e => Except.error e
  | Except.ok fetch_start =>
    match fetcher fetch_start with
    | Except.error _ => Except.ok st
    | Except.ok features =>
      if features.isEmpty then
        Except.ok { st with
          last_run_timestamp := some now
          run_metadata := some
            { features_fetched := 0
              features_new := 0
              features_rejected_quality := none
              features_rejected_timestamp := none
              oldest_observation := none
              newest_observation := none } }
      else
        match processFeatures cfg now name (initLoop st.per_station fetch_start) features with
        | Except.error e => Except.error e
        | Except.ok ls =>
          if !ls.new_features.isEmpty && !uploadOk then Except.error ()
          else
            Except.ok
              { global_last_processed_dt := some (TStr.iso ls.max_seen)
                per_station := ls.per_station
                last_run_timestamp := some now
                stations_tracked := some ls.per_station.length
                run_metadata := some
                  { features_fetched := features.length
                    features_new := ls.new_features.length
                    features_rejected_quality := some ls.rejected_quality_count
                    features_rejected_timestamp := some ls.rejected_timestamp_count
                    oldest_observation := Option.map TStr.iso ls.min_obs
                    newest_observation := Option.map TStr.iso ls.max_obs } }

/-! ## Paginated API client (lines 168-206 `fetch_features_with_paging`)

URLs are modelled as `Nat` tokens (the code only compares them for
equality, at line 178, to decide whether to attach the query parameters).
A page response is either an HTTP-status error (`requests.HTTPError`,
caught and turned into an empty overall result), a non-HTTP transport
failure (re-raised), or a JSON body with its `features` array and the
`href` of its first `rel = next` link, if any. The `Bool` argument of a
world is whether the request carried the query parameters (true exactly
for the request whose URL equals the start URL). The `while` loop is run
on fuel; `none` means the fuel ran out before the loop finished. -/

/-- One page response of the upstream API. -/
inductive PageResp where
  | httpError : PageResp
  | transportError : PageResp
  | ok : List Feature → Option Nat → PageResp

/-- The `while next_url` loop of lines 175-203, accumulating `items`. -/
def fetchGo (world : Nat → Bool → PageResp) (start_url : Nat) :
    Nat → Nat → List Feature → Option (Except Unit (List Feature))
  | 0, _, _ => none
  | fuel + 1, url, acc =>
    match world url (url == start_url) with
    | PageResp.httpError => some (Except.ok [])
    | PageResp.transportError => some (Except.error ())
    | PageResp.ok feats next =>
      match next with
      | none => some (Except.ok (acc ++ feats))
      | some u => fetchGo world start_url fuel u (acc ++ feats)

/-- Lines 168-206 `fetch_features_with_paging`: start at `start_url` with
the parameters attached, follow `next` links bare until none is present.
An HTTP-status error on any page returns `Except.ok []` (logged, not
raised); any other exception propagates (`Except.error`). -/
def fetch_features_with_paging (world : Nat → Bool → PageResp)
    (start_url : Nat) (fuel : Nat) : Option (Except Unit (List Feature)) :=
  fetchGo world start_url fuel start_url []

/-- A well-formed page chain built from a list of per-page feature arrays:
page `i` (URL token `i`) serves `pss[i]` and links to page `i + 1` while
one exists. A request with the wrong parameter flag (parameters on a
non-start page, or missing on the start page) is answered with a
transport error, so a successful traversal certifies that the client
attached the parameters only to the first request. -/
def chainWorld (pss : List (List Feature)) : Nat → Bool → PageResp :=
  fun i b =>
    if b = (i == 0) then
      PageResp.ok (pss.getD i []) (if i + 1 < pss.length then some (i + 1) else none)
    else PageResp.transportError

/-- `chainWorld` with page `k` replaced by an HTTP-status error. -/
def chainWorldHttpErr (pss : List (List Feature)) (k : Nat) :
    Nat → Bool → PageResp :=
  fun i b => if i == k then PageResp.httpError else chainWorld pss i b

/-- `chainWorld` with page `k` replaced by a transport failure. -/
def chainWorldTransErr (pss : List (List Feature)) (k : Nat) :
    Nat → Bool → PageResp :=
  fun i b => if i == k then PageResp.transportError else chainWorld pss i b

/-- The global watermark of a `process_endpoint` outcome (`none` when the
call raised). -/
def globalOf (r : Except Unit SourceState) : Option TStr :=
  match r with
  | Except.ok s => s.global_last_processed_dt
  | Except.error _ => none

/-- The per-station map of a `process_endpoint` outcome (empty when the
call raised). -/
def perStationOf (r : Except Unit SourceState) : List (String × TStr) :=
  match r with
  | Except.ok s => s.per_station
  | Except.error _ => []

/-! ## Run orchestrator (lines 372-441 `main`)

The full persisted state is the triple of sub-states (a missing top-level
key behaves as the empty sub-state everywhere in the code). Each source's
outside world is its fetch behaviour plus whether its delta upload
succeeds; `persistOk` models the final `s3_put_json`, whose failure is
re-raised after the three sources have been attempted. -/

/-- The whole persisted state document: one sub-state per source. -/
structure FullState where
  swob : SourceState
  hydrometric : SourceState
  climate_hourly : SourceState
deriving DecidableEq

/-- Project one source's sub-state out of the full state. -/
def getSub (st : FullState) : SourceName → SourceState
  | SourceName.swob => st.swob
  | SourceName.hydrometric => st.hydrometric
  | SourceName.climate_hourly => st.climate_hourly

/-- The interaction of one source with the outside world during one run. -/
structure SourceWorld where
  fetcher : Int → Except Unit (List Feature)
  uploadOk : Bool

/-- Select the world of a given source. -/
def worldOf (ws wh wc : SourceWorld) : SourceName → SourceWorld
  | SourceName.swob => ws
  | SourceName.hydrometric => wh
  | SourceName.climate_hourly => wc

/-- One guarded `try: state = process_endpoint(...) except: state[name] =
original_state.get(name, ...)` block of `main` (lines 397-416), acting on
the failing source's slot: on success the processor's result, on a raised
exception the pre-run snapshot `orig`. -/
def runSource (cfg : Config) (now : Int) (w : SourceWorld) (name : SourceName)
    (orig cur : SourceState) : SourceState :=
  match process_endpoint cfg now w.fetcher w.uploadOk name cur with
  | Except.ok s => s
  | Except.error _ => orig

/-- Lines 392-416 of `main`: snapshot the loaded state, then process the
three sources in order, rolling each failure back to its snapshot. The
result is the state handed to the final persistence step. -/
def mainAttempt (cfg : Config) (now : Int) (ws wh wc : SourceWorld)
    (st0 : FullState) : FullState :=
  let s1 : FullState :=
    { st0 with swob := runSource cfg now ws SourceName.swob st0.swob st0.swob }
  let s2 : FullState :=
    { s1 with hydrometric :=
        runSource cfg now wh SourceName.hydrometric st0.hydrometric s1.hydrometric }
  let s3 : FullState :=
    { s2 with climate_hourly :=
        runSource cfg now wc SourceName.climate_hourly st0.climate_hourly s2.climate_hourly }
  s3

/-- Lines 392-441 of `main`: the state the run attempts to persist,
paired with whether the persistence succeeded (`false` models the
re-raised `s3_put_json` failure of lines 439-441). The persistence is
attempted with the merged state of all three sources regardless of
per-source outcomes. -/
def mainRun (cfg : Config) (now : Int) (ws wh wc : SourceWorld)
    (persistOk : Bool) (st0 : FullState) : FullState × Bool :=
  (mainAttempt cfg now ws wh wc st0, persistOk)

/-! ## Concrete instances used by witnesses and counterexamples -/

/-- A hydrometric feature whose timestamp string fails every parse format. -/
def cxBadFeat : Feature :=
  { id := some "x", props := { emptyProps with DATETIME := some TStr.bad } }

/-- A prior hydrometric sub-state with global watermark 999000 and one
station at the same instant (the invariant holds). -/
def cxPrior : SourceState :=
  { emptySourceState with
      global_last_processed_dt := some (TStr.iso 999000)
      per_station := [("A", TStr.iso 999000)] }

/-- One hydrometric run at `now = 1000000` whose batch holds only
`cxBadFeat`: every feature is timestamp-rejected, nothing is included. -/
def cxRun : Except Unit SourceState :=
  process_endpoint defaultConfig 1000000 (fun _ => Except.ok [cxBadFeat]) true
    SourceName.hydrometric cxPrior

/-- A swob feature whose timestamp string fails every parse format. -/
def cx2BadFeat : Feature :=
  { id := some "y", props := { emptyProps with date_tm_value := some TStr.bad } }

/-- A prior swob sub-state with global watermark 800000 and station "B"
at the same instant (the invariant holds). -/
def cx2Prior : SourceState :=
  { emptySourceState with
      global_last_processed_dt := some (TStr.iso 800000)
      per_station := [("B", TStr.iso 800000)] }

/-- One swob run at `now = 810000` whose batch holds only `cx2BadFeat`. -/
def cx2Run : Except Unit SourceState :=
  process_endpoint defaultConfig 810000 (fun _ => Except.ok [cx2BadFeat]) true
    SourceName.swob cx2Prior

/-- A hydrometric feature for station "A" at instant 499990. -/
def wOld : Feature :=
  { id := some "z",
    props := { emptyProps with
      STATION_NUMBER := some "A", DATETIME := some (TStr.iso 499990) } }

/-- A hydrometric feature for station "A" at instant 500010. -/
def wNew : Feature :=
  { id := some "y",
    props := { emptyProps with
      STATION_NUMBER := some "A", DATETIME := some (TStr.iso 500010) } }

/-- A per-station map holding station "A" at watermark 500000. -/
def wPS : List (String × TStr) := [("A", TStr.iso 500000)]

/-- A source world that fetches empty batches and uploads successfully. -/
def wEmptyWorld : SourceWorld :=
  { fetcher := fun _ => Except.ok [], uploadOk := true }

/-- A sub-state whose stored global watermark string is unparsable, so
`process_endpoint` raises while deriving the fetch window. -/
def stBroken : SourceState :=
  { emptySourceState with global_last_processed_dt := some TStr.bad }

/-- A full state whose hydrometric slice is `stBroken`. -/
def st0Witness : FullState :=
  { swob := emptySourceState
    hydrometric := stBroken
    climate_hourly := emptySourceState }

/-- Three pages of features for the pagination witnesses. -/
def wPages : List (List Feature) :=
  [[{ id := some "a", props := emptyProps }, { id := some "b", props := emptyProps }],
   [{ id := some "c", props := emptyProps }],
   [{ id := some "d", props := emptyProps }]]

/-- An id-less hydrometric feature from station "S1". -/
def wNoId1 : Feature :=
  { id := none,
    props := { emptyProps with
      STATION_NUMBER := some "S1", DATETIME := some (TStr.iso 500010) } }

/-- An id-less hydrometric feature from station "S2", a distinct
observation from a distinct station. -/
def wNoId2 : Feature :=
  { id := none,
    props := { emptyProps with
      STATION_NUMBER := some "S2", DATETIME := some (TStr.iso 500020) } }

/-- A feature with no timestamp field at all. -/
def wNoTs : Feature := { id := some "w", props := emptyProps }

/-! ## Basic lemmas about the embedded operations -/

/-- A successful parse certifies that the instant passed validation. -/
theorem parse_some_validate {cfg : Config} {now : Int} {s : Option TStr} {t : Int}
    (h : parse_iso_to_utc cfg now s = some t) :
    validate_timestamp cfg now t = true := by
  cases s with
  | none => simp [parse_iso_to_utc] at h
  | some ts =>
    cases ts with
    | bad => simp [parse_iso_to_utc] at h
    | iso u =>
      simp only [parse_iso_to_utc] at h
      by_cases hv : validate_timestamp cfg now u = true
      · rw [if_pos hv] at h
        cases h
        exact hv
      · rw [if_neg hv] at h
        cases h

/-- Parsing a stored `iso` string back succeeds when the instant is valid. -/
theorem parse_iso_of_validate {cfg : Config} {now : Int} {t : Int}
    (h : validate_timestamp cfg now t = true) :
    parse_iso_to_utc cfg now (some (TStr.iso t)) = some t := by
  simp [parse_iso_to_utc, h]

/-- A successful observation-timestamp extraction certifies validity. -/
theorem get_obs_validate {cfg : Config} {now : Int} {name : SourceName}
    {props : Props} {t : Int}
    (h : get_observation_timestamp cfg now name props = some t) :
    validate_timestamp cfg now t = true := by
  unfold get_observation_timestamp at h
  exact parse_some_validate h

/-- Unfolding lemma for `List.lookup` on a cons cell, with propositional
equality in place of the `BEq` test. -/
theorem lookup_cons_prop (k0 k' : String) (v0 : TStr) (rest : List (String × TStr)) :
    List.lookup k' ((k0, v0) :: rest) =
      if k' = k0 then some v0 else List.lookup k' rest := by
  by_cases h : k' = k0
  · have hb : (k' == k0) = true := by simp [h]
    simp [List.lookup, hb, h]
  · have hb : (k' == k0) = false := by simp [h]
    simp [List.lookup, hb, h]

/-- Lookup after a dict assignment: the assigned key reads back the new
value, every other key is unchanged. -/
theorem lookup_setStation (ps : List (String × TStr)) (k k' : String) (v : TStr) :
    List.lookup k' (setStation ps k v) =
      if k' = k then some v else List.lookup k' ps := by
  induction ps with
  | nil =>
    show List.lookup k' [(k, v)] = _
    rw [lookup_cons_prop]
  | cons p rest ih =>
    obtain ⟨k0, v0⟩ := p
    by_cases h0 : k0 = k
    · subst h0
      have hb : (k0 == k0) = true := by simp
      simp only [setStation, hb, if_true]
      by_cases h : k' = k0 <;> simp [lookup_cons_prop, h]
    · have hb : (k0 == k) = false := by simp [h0]
      simp only [setStation, hb, Bool.false_eq_true, if_false]
      rw [lookup_cons_prop, lookup_cons_prop, ih]
      by_cases h : k' = k0
      · subst h
        have : ¬(k' = k) := fun hc => h0 (hc.symm ▸ rfl)
        simp [this]
      · simp [h]

/-! ## Lemmas about one iteration of the per-feature loop -/

/-- A feature whose id was already seen in this batch is dropped without
touching any loop state (lines 284-286). -/
theorem step_dup_eq {cfg : Config} {now : Int} {name : SourceName}
    {ls : LoopState} {f : Feature} (h : f.id ∈ ls.seen_ids) :
    step cfg now name ls f = Except.ok ls := by
  simp only [step, if_pos h]

/-- `max_seen_dt` never decreases across one loop iteration. -/
theorem step_max_le {cfg : Config} {now : Int} {name : SourceName}
    {ls ls' : LoopState} {f : Feature}
    (h : step cfg now name ls f = Except.ok ls') :
    ls.max_seen ≤ ls'.max_seen := by
  simp only [step] at h
  split at h
  · cases h
    exact le_refl _
  · split at h
    · cases h
      exact le_refl _
    · split at h
      · split at h
        · exact absurd h (by simp)
        · cases h
          simp only []
          split <;> omega
      · cases h
        exact le_refl _

/-- The set of seen ids only grows across one loop iteration. -/
theorem step_seen_mono {cfg : Config} {now : Int} {name : SourceName}
    {ls ls' : LoopState} {f : Feature} {x : Option String}
    (h : step cfg now name ls f = Except.ok ls') (hx : x ∈ ls.seen_ids) :
    x ∈ ls'.seen_ids := by
  simp only [step] at h
  split at h
  · cases h
    exact hx
  · split at h
    · cases h
      exact List.mem_cons_of_mem _ hx
    · split at h
      · split at h
        · exact absurd h (by simp)
        · cases h
          exact List.mem_cons_of_mem _ hx
      · cases h
        exact List.mem_cons_of_mem _ hx

/-- After an iteration on feature `f`, the id of `f` has been seen. -/
theorem step_self_mem {cfg : Config} {now : Int} {name : SourceName}
    {ls ls' : LoopState} {f : Feature}
    (h : step cfg now name ls f = Except.ok ls') :
    f.id ∈ ls'.seen_ids := by
  by_cases hd : f.id ∈ ls.seen_ids
  · rw [step_dup_eq hd] at h
    cases h
    exact hd
  · simp only [step, if_neg hd] at h
    split at h
    · cases h
      exact List.mem_cons_self _ _
    · split at h
      · split at h
        · exact absurd h (by simp)
        · cases h
          exact List.mem_cons_self _ _
      · cases h
        exact List.mem_cons_self _ _

/-- Every binding of the map after a successful per-station watermark
update is either the new instant or an old binding. -/
theorem updateStation_lookup {cfg : Config} {now : Int}
    {ps ps' : List (String × TStr)} {k : String} {t : Int}
    (h : updateStation cfg now ps k t = Except.ok ps') :
    ∀ k' t', List.lookup k' ps' = some (TStr.iso t') →
      t' = t ∨ List.lookup k' ps = some (TStr.iso t') := by
  intro k' t' hl
  simp only [updateStation] at h
  split at h
  · cases h
    exact Or.inr hl
  · split at h
    · cases h
      rw [lookup_setStation] at hl
      by_cases hk : k' = k
      · rw [if_pos hk] at hl
        cases hl
        exact Or.inl rfl
      · rw [if_neg hk] at hl
        exact Or.inr hl
    · split at h
      · exact absurd h (by simp)
      · split at h
        · cases h
          rw [lookup_setStation] at hl
          by_cases hk : k' = k
          · rw [if_pos hk] at hl
            cases hl
            exact Or.inl rfl
          · rw [if_neg hk] at hl
            exact Or.inr hl
        · cases h
          exact Or.inr hl

/-- One loop iteration preserves the bound "every parseable per-station
watermark is at most `B` or at most the running `max_seen_dt`". -/
theorem step_station_bound {cfg : Config} {now : Int} {name : SourceName}
    {ls ls' : LoopState} {f : Feature} {B : Int}
    (h : step cfg now name ls f = Except.ok ls')
    (hB : ∀ k t, List.lookup k ls.per_station = some (TStr.iso t) →
      t ≤ B ∨ t ≤ ls.max_seen) :
    ∀ k t, List.lookup k ls'.per_station = some (TStr.iso t) →
      t ≤ B ∨ t ≤ ls'.max_seen := by
  have hmax := step_max_le h
  intro k t hl
  simp only [step] at h
  split at h
  · cases h
    exact hB k t hl
  · split at h
    · cases h
      exact hB k t hl
    · rename_i tobs hobs
      split at h
      · split at h
        · exact absurd h (by simp)
        · rename_i ps' hupd
          cases h
          simp only [] at hl
          rcases updateStation_lookup hupd k t hl with hnew | hold
          · subst hnew
            refine Or.inr ?_
            simp only []
            split <;> omega
          · rcases hB k t hold with h1 | h2
            · exact Or.inl h1
            · refine Or.inr ?_
              simp only []
              split <;> omega
      · cases h
        exact hB k t hl

/-- A feature with an absent, unparsable or out-of-window timestamp is
counted as a timestamp rejection and changes nothing else: no watermark,
no inclusion (lines 292-294). -/
theorem step_ts_reject {cfg : Config} {now : Int} {name : SourceName}
    {ls : LoopState} {f : Feature}
    (hd : f.id ∉ ls.seen_ids)
    (hobs : get_observation_timestamp cfg now name f.props = none) :
    step cfg now name ls f = Except.ok { ls with
      seen_ids := f.id :: ls.seen_ids
      rejected_timestamp_count := ls.rejected_timestamp_count + 1 } := by
  simp only [step, if_neg hd, hobs]

/-- A feature whose observation instant is at or before its station's
current (valid) watermark is never included and never moves the
per-station map (lines 305-312: inclusion needs strict greater-than). -/
theorem step_skip_old {cfg : Config} {now : Int} {name : SourceName}
    {ls : LoopState} {f : Feature} {T t : Int}
    (hd : f.id ∉ ls.seen_ids)
    (hobs : get_observation_timestamp cfg now name f.props = some t)
    (hT : List.lookup (get_station_id name f.props f.id) ls.per_station =
      some (TStr.iso T))
    (hvT : validate_timestamp cfg now T = true)
    (hle : t ≤ T) :
    ∃ ls', step cfg now name ls f = Except.ok ls' ∧
      ls'.new_features = ls.new_features ∧
      ls'.per_station = ls.per_station ∧
      ls'.max_seen = ls.max_seen ∧
      ls'.seen_ids = f.id :: ls.seen_ids := by
  have hdec : (decide (t > T)) = false := decide_eq_false_iff_not.mpr (by omega)
  simp only [step, if_neg hd, hobs, hT, parse_iso_of_validate hvT, hdec,
    Bool.false_and, Bool.not_false, Bool.false_eq_true, if_false]
  exact ⟨_, rfl, rfl, rfl, rfl, rfl⟩

/-- A quality-passing feature strictly newer than its station's valid
watermark is included and advances the station watermark to its instant
(lines 309-324). -/
theorem step_include_newer {cfg : Config} {now : Int} {name : SourceName}
    {ls : LoopState} {f : Feature} {k : String} {T t : Int}
    (hd : f.id ∉ ls.seen_ids)
    (hk : get_station_id name f.props f.id = k)
    (hknz : ¬(k = ""))
    (hobs : get_observation_timestamp cfg now name f.props = some t)
    (hT : List.lookup k ls.per_station = some (TStr.iso T))
    (hvT : validate_timestamp cfg now T = true)
    (hgt : T < t)
    (hq : is_high_quality_data cfg name f.props = true) :
    ∃ ls', step cfg now name ls f = Except.ok ls' ∧
      ls'.new_features = ls.new_features ++ [f] ∧
      ls'.per_station = setStation ls.per_station k (TStr.iso t) ∧
      ls'.seen_ids = f.id :: ls.seen_ids := by
  have hdec : (decide (t > T)) = true := decide_eq_true (by omega)
  simp only [step, if_neg hd, hobs, hk, hT, parse_iso_of_validate hvT, hdec, hq,
    Bool.true_and, Bool.and_self, if_true, updateStation, if_neg hknz,
    if_pos hgt]
  exact ⟨_, rfl, rfl, rfl, rfl⟩

/-! ## Lemmas about the whole per-feature loop -/

/-- `max_seen_dt` never decreases across the whole loop. -/
theorem processFeatures_max_le {cfg : Config} {now : Int} {name : SourceName} :
    ∀ {fs : List Feature} {ls ls' : LoopState},
    processFeatures cfg now name ls fs = Except.ok ls' →
    ls.max_seen ≤ ls'.max_seen := by
  intro fs
  induction fs with
  | nil =>
    intro ls ls' h
    cases h
    exact le_refl _
  | cons f fs ih =>
    intro ls ls' h
    simp only [processFeatures] at h
    cases hs : step cfg now name ls f with
    | ok ls1 =>
      rw [hs] at h
      exact le_trans (step_max_le hs) (ih h)
    | error e =>
      rw [hs] at h
      cases h

/-- The whole loop preserves the per-station bound against `B` or the
running `max_seen_dt`. -/
theorem processFeatures_station_bound {cfg : Config} {now : Int}
    {name : SourceName} {B : Int} :
    ∀ {fs : List Feature} {ls ls' : LoopState},
    processFeatures cfg now name ls fs = Except.ok ls' →
    (∀ k t, List.lookup k ls.per_station = some (TStr.iso t) →
      t ≤ B ∨ t ≤ ls.max_seen) →
    (∀ k t, List.lookup k ls'.per_station = some (TStr.iso t) →
      t ≤ B ∨ t ≤ ls'.max_seen) := by
  intro fs
  induction fs with
  | nil =>
    intro ls ls' h hB
    cases h
    exact hB
  | cons f fs ih =>
    intro ls ls' h hB
    simp only [processFeatures] at h
    cases hs : step cfg now name ls f with
    | ok ls1 =>
      rw [hs] at h
      exact ih h (step_station_bound hs hB)
    | error e =>
      rw [hs] at h
      cases h

/-- The seen-id set only grows across the whole loop. -/
theorem processFeatures_seen_mono {cfg : Config} {now : Int} {name : SourceName} :
    ∀ {fs : List Feature} {ls ls' : LoopState} {x : Option String},
    processFeatures cfg now name ls fs = Except.ok ls' →
    x ∈ ls.seen_ids → x ∈ ls'.seen_ids := by
  intro fs
  induction fs with
  | nil =>
    intro ls ls' x h hx
    cases h
    exact hx
  | cons f fs ih =>
    intro ls ls' x h hx
    simp only [processFeatures] at h
    cases hs : step cfg now name ls f with
    | ok ls1 =>
      rw [hs] at h
      exact ih h (step_seen_mono hs hx)
    | error e =>
      rw [hs] at h
      cases h

/-- After the loop has processed a batch, the id of every feature of the
batch has been seen. -/
theorem processFeatures_mem_seen {cfg : Config} {now : Int} {name : SourceName} :
    ∀ {fs : List Feature} {ls ls' : LoopState} {g : Feature},
    processFeatures cfg now name ls fs = Except.ok ls' →
    g ∈ fs → g.id ∈ ls'.seen_ids := by
  intro fs
  induction fs with
  | nil =>
    intro ls ls' g _ hg
    cases hg
  | cons f fs ih =>
    intro ls ls' g h hg
    simp only [processFeatures] at h
    cases hs : step cfg now name ls f with
    | ok ls1 =>
      rw [hs] at h
      rcases List.mem_cons.mp hg with hgf | hgfs
      · subst hgf
        exact processFeatures_seen_mono h (step_self_mem hs)
      · exact ih h hgfs
    | error e =>
      rw [hs] at h
      cases h

/-- A feature whose id is already seen is dropped entirely: the loop
behaves as if it were not in the batch at all. -/
theorem processFeatures_skip {cfg : Config} {now : Int} {name : SourceName}
    {f : Feature} (B1 B2 : List Feature) :
    ∀ ls : LoopState, f.id ∈ ls.seen_ids →
    processFeatures cfg now name ls (B1 ++ f :: B2) =
      processFeatures cfg now name ls (B1 ++ B2) := by
  induction B1 with
  | nil =>
    intro ls hmem
    simp only [List.nil_append, processFeatures, step_dup_eq hmem]
  | cons b B1 ih =>
    intro ls hmem
    simp only [List.cons_append, processFeatures]
    cases hs : step cfg now name ls b with
    | ok ls1 => exact ih ls1 (step_seen_mono hs hmem)
    | error e => rfl

/-- Re-processing a batch in which every timestamp-valid feature is at or
before its station's valid watermark includes nothing and leaves the
per-station map untouched (the idempotent-overlap property). -/
theorem processFeatures_noNew {cfg : Config} {now : Int} {name : SourceName} :
    ∀ {fs : List Feature} {ls : LoopState},
    (∀ f ∈ fs, ∀ t, get_observation_timestamp cfg now name f.props = some t →
      ∃ T, List.lookup (get_station_id name f.props f.id) ls.per_station =
          some (TStr.iso T) ∧
        validate_timestamp cfg now T = true ∧ t ≤ T) →
    ∃ ls', processFeatures cfg now name ls fs = Except.ok ls' ∧
      ls'.new_features = ls.new_features ∧
      ls'.per_station = ls.per_station := by
  intro fs
  induction fs with
  | nil =>
    intro ls _
    exact ⟨ls, rfl, rfl, rfl⟩
  | cons f fs ih =>
    intro ls hfs
    by_cases hd : f.id ∈ ls.seen_ids
    · have hstep := @step_dup_eq cfg now name ls f hd
      obtain ⟨ls', h1, h2, h3⟩ :=
        ih (fun g hg => hfs g (List.mem_cons_of_mem _ hg))
      refine ⟨ls', ?_, h2, h3⟩
      simp only [processFeatures, hstep]
      exact h1
    · cases hobs : get_observation_timestamp cfg now name f.props with
      | none =>
        have hstep := @step_ts_reject cfg now name ls f hd hobs
        obtain ⟨ls', h1, h2, h3⟩ :=
          @ih { ls with
            seen_ids := f.id :: ls.seen_ids
            rejected_timestamp_count := ls.rejected_timestamp_count + 1 }
            (fun g hg => hfs g (List.mem_cons_of_mem _ hg))
        refine ⟨ls', ?_, h2, h3⟩
        simp only [processFeatures, hstep]
        exact h1
      | some t =>
        obtain ⟨T, hT, hvT, hle⟩ := hfs f (List.mem_cons_self _ _) t hobs
        obtain ⟨ls1, hstep, hnf, hps, _, _⟩ := step_skip_old hd hobs hT hvT hle
        obtain ⟨ls', h1, h2, h3⟩ := @ih ls1
          (fun g hg t' ht' => by
            rw [hps]
            exact hfs g (List.mem_cons_of_mem _ hg) t' ht')
        refine ⟨ls', ?_, ?_, ?_⟩
        · simp only [processFeatures, hstep]
          exact h1
        · rw [h2, hnf]
        · rw [h3, hps]

/-! ## Lemmas about the paginated fetch on well-formed page chains -/

/-- Traversal of a clean page chain from page `i`: the loop returns the
accumulator followed by all remaining pages, in order. -/
theorem chainWorld_go (pss : List (List Feature)) :
    ∀ (fuel i : Nat) (acc : List Feature), i < pss.length →
    pss.length - i ≤ fuel →
    fetchGo (chainWorld pss) 0 fuel i acc =
      some (Except.ok (acc ++ (pss.drop i).flatten)) := by
  intro fuel
  induction fuel with
  | zero =>
    intro i acc hi hf
    omega
  | succ fuel ih =>
    intro i acc hi hf
    have hdrop := List.drop_eq_getElem_cons hi
    have hgetD := List.getD_eq_getElem pss [] hi
    simp only [fetchGo, chainWorld, if_pos rfl, if_true]
    by_cases hlt : i + 1 < pss.length
    · rw [if_pos hlt]
      show fetchGo (chainWorld pss) 0 fuel (i + 1) (acc ++ pss.getD i []) = _
      rw [ih (i + 1) (acc ++ pss.getD i []) hlt (by omega)]
      rw [hgetD, hdrop, List.flatten_cons]
      simp [List.append_assoc]
    · rw [if_neg hlt]
      show some (Except.ok (acc ++ pss.getD i [])) = _
      have hdropnil : pss.drop (i + 1) = [] := List.drop_eq_nil_of_le (by omega)
      rw [hdrop, hgetD, hdropnil]
      simp

/-- Traversal of a chain whose page `k` answers with an HTTP-status
error: starting anywhere at or before `k`, the fetch returns the empty
result, discarding all previously accumulated pages. -/
theorem chainWorldHttpErr_go (pss : List (List Feature)) (k : Nat) :
    ∀ (fuel i : Nat) (acc : List Feature), i ≤ k → k < pss.length →
    k + 1 - i ≤ fuel →
    fetchGo (chainWorldHttpErr pss k) 0 fuel i acc = some (Except.ok []) := by
  intro fuel
  induction fuel with
  | zero =>
    intro i acc hik hk hf
    omega
  | succ fuel ih =>
    intro i acc hik hk hf
    by_cases hek : i = k
    · subst hek
      simp [fetchGo, chainWorldHttpErr]
    · have hik' : i < k := lt_of_le_of_ne hik hek
      have hbeq : (i == k) = false := by simp [hek]
      have hlt : i + 1 < pss.length := by omega
      simp only [fetchGo, chainWorldHttpErr, hbeq, Bool.false_eq_true, if_false,
        chainWorld, if_pos rfl, if_pos hlt]
      exact ih (i + 1) _ (by omega) hk (by omega)

/-- Traversal of a chain whose page `k` answers with a non-HTTP transport
failure: starting anywhere at or before `k`, the fetch raises. -/
theorem chainWorldTransErr_go (pss : List (List Feature)) (k : Nat) :
    ∀ (fuel i : Nat) (acc : List Feature), i ≤ k → k < pss.length →
    k + 1 - i ≤ fuel →
    fetchGo (chainWorldTransErr pss k) 0 fuel i acc =
      some (Except.error ()) := by
  intro fuel
  induction fuel with
  | zero =>
    intro i acc hik hk hf
    omega
  | succ fuel ih =>
    intro i acc hik hk hf
    by_cases hek : i = k
    · subst hek
      simp [fetchGo, chainWorldTransErr]
    · have hik' : i < k := lt_of_le_of_ne hik hek
      have hbeq : (i == k) = false := by simp [hek]
      have hlt : i + 1 < pss.length := by omega
      simp only [fetchGo, chainWorldTransErr, hbeq, Bool.false_eq_true, if_false,
        chainWorld, if_pos rfl, if_pos hlt]
      exact ih (i + 1) _ (by omega) hk (by omega)

/-! ## Lemmas about the endpoint processor and the orchestrator -/

/-- When the fetch raises a non-HTTP exception, `process_endpoint`
catches it (lines 252-256) and returns the state unchanged: nothing
propagates to the caller. -/
theorem process_endpoint_fetch_raise {cfg : Config} {now : Int}
    {fetcher : Int → Except Unit (List Feature)} {uploadOk : Bool}
    {name : SourceName} {st : SourceState} {s : Int}
    (hw : fetch_window_start cfg now name st = Except.ok s)
    (hf : fetcher s = Except.error ()) :
    process_endpoint cfg now fetcher uploadOk name st = Except.ok st := by
  simp only [process_endpoint, hw, hf]

/-- Each source's slot of the orchestrator's final state is determined by
that source's own processing of its own pre-run sub-state alone. -/
theorem mainAttempt_sub (cfg : Config) (now : Int) (ws wh wc : SourceWorld)
    (st0 : FullState) (b : SourceName) :
    getSub (mainAttempt cfg now ws wh wc st0) b =
      runSource cfg now (worldOf ws wh wc b) b (getSub st0 b) (getSub st0 b) := by
  cases b <;> rfl

/-- Two overlapping windows redelivering the same feature: the first run
includes it and advances its station watermark to its instant; the second
run, started from the first run's per-station map, includes nothing. -/
theorem two_window_once {cfg : Config} {now : Int} {name : SourceName}
    {ps : List (String × TStr)} {s1 s2 : Int} {k : String} {T t : Int}
    {f : Feature}
    (hk : get_station_id name f.props f.id = k)
    (hknz : ¬(k = ""))
    (hobs : get_observation_timestamp cfg now name f.props = some t)
    (hT : List.lookup k ps = some (TStr.iso T))
    (hvT : validate_timestamp cfg now T = true)
    (hgt : T < t)
    (hq : is_high_quality_data cfg name f.props = true) :
    ∃ ls1 ls2,
      processFeatures cfg now name (initLoop ps s1) [f] = Except.ok ls1 ∧
      ls1.new_features = [f] ∧
      List.lookup k ls1.per_station = some (TStr.iso t) ∧
      processFeatures cfg now name (initLoop ls1.per_station s2) [f] =
        Except.ok ls2 ∧
      ls2.new_features = [] := by
  have hd1 : f.id ∉ (initLoop ps s1).seen_ids := by simp [initLoop]
  have hT1 : List.lookup k (initLoop ps s1).per_station = some (TStr.iso T) := hT
  obtain ⟨ls1, hstep, hnf, hps, hseen⟩ :=
    step_include_newer hd1 hk hknz hobs hT1 hvT hgt hq
  have hlook : List.lookup k ls1.per_station = some (TStr.iso t) := by
    rw [hps]
    show List.lookup k (setStation ps k (TStr.iso t)) = _
    rw [lookup_setStation, if_pos rfl]
  have hvt : validate_timestamp cfg now t = true := get_obs_validate hobs
  have hd2 : f.id ∉ (initLoop ls1.per_station s2).seen_ids := by simp [initLoop]
  have hT2 : List.lookup (get_station_id name f.props f.id)
      (initLoop ls1.per_station s2).per_station = some (TStr.iso t) := by
    rw [hk]
    exact hlook
  obtain ⟨ls2, hstep2, hnf2, _, _, _⟩ :=
    step_skip_old hd2 hobs hT2 hvt (le_refl t)
  refine ⟨ls1, ls2, ?_, ?_, hlook, ?_, ?_⟩
  · simp only [processFeatures, hstep]
  · rw [hnf]
    simp [initLoop]
  · simp only [processFeatures, hstep2]
  · rw [hnf2]
    simp [initLoop]

/-! ## The claims -/

/-- C6: fetch-window derivation. With no prior global watermark the fetch
start is `now` minus the default initial lookback, except for the
climate-hourly source which uses its longer lookback in days; with a prior
(parseable) watermark `W` the fetch start is `W - INCREMENTAL_OVERLAP_MIN`
for every source. -/
theorem flume_C6 :
    (∀ (cfg : Config) (now : Int) (st : SourceState),
      st.global_last_processed_dt = none →
      fetch_window_start cfg now SourceName.climate_hourly st =
        Except.ok (now - cfg.CLIMATE_HOURLY_LOOKBACK_DAYS * 1440)) ∧
    (∀ (cfg : Config) (now : Int) (name : SourceName) (st : SourceState),
      st.global_last_processed_dt = none → name ≠ SourceName.climate_hourly →
      fetch_window_start cfg now name st =
        Except.ok (now - cfg.DEFAULT_INITIAL_LOOKBACK_MIN)) ∧
    (∀ (cfg : Config) (now : Int) (name : SourceName) (st : SourceState)
      (W : Int),
      st.global_last_processed_dt = some (TStr.iso W) →
      validate_timestamp cfg now W = true →
      fetch_window_start cfg now name st =
        Except.ok (W - cfg.INCREMENTAL_OVERLAP_MIN)) := by
  refine ⟨?_, ?_, ?_⟩
  · intro cfg now st h
    simp [fetch_window_start, h]
  · intro cfg now name st h hn
    simp [fetch_window_start, h, hn]
  · intro cfg now name st W h hv
    simp [fetch_window_start, h, parse_iso_of_validate hv]

/-- Witness for C6 at the defaults: fresh climate-hourly start is
`now - 7 days`, fresh swob start is `now - 60 min`, and a prior watermark
999000 gives start `999000 - 15`. -/
theorem flume_C6_witness :
    fetch_window_start defaultConfig 1000000 SourceName.climate_hourly
      emptySourceState = Except.ok 989920 ∧
    fetch_window_start defaultConfig 1000000 SourceName.swob
      emptySourceState = Except.ok 999940 ∧
    fetch_window_start defaultConfig 1000000 SourceName.hydrometric
      cxPrior = Except.ok 998985 := by
  refine ⟨?_, ?_, ?_⟩
  · rw [flume_C6.1 defaultConfig 1000000 emptySourceState rfl]
    rfl
  · rw [flume_C6.2.1 defaultConfig 1000000 SourceName.swob emptySourceState rfl
      (by decide)]
    rfl
  · rw [flume_C6.2.2 defaultConfig 1000000 SourceName.hydrometric cxPrior
      999000 rfl (by decide)]
    rfl

/-- C7: quality filtering. Non-swob sources always pass. For swob, a
present critical-field quality code below the threshold rejects the whole
feature; codes that are absent or at/above the threshold (including
exactly equal) accept it. -/
theorem flume_C7 :
    (∀ (cfg : Config) (name : SourceName) (props : Props),
      name ≠ SourceName.swob → is_high_quality_data cfg name props = true) ∧
    (∀ (cfg : Config) (props : Props) (v : Int),
      (props.air_temp_qa = some v ∨ props.rel_hum_qa = some v ∨
        props.stn_pres_qa = some v) →
      v < cfg.MIN_QA_THRESHOLD →
      is_high_quality_data cfg SourceName.swob props = false) ∧
    (∀ (cfg : Config) (props : Props),
      (∀ v, props.air_temp_qa = some v → cfg.MIN_QA_THRESHOLD ≤ v) →
      (∀ v, props.rel_hum_qa = some v → cfg.MIN_QA_THRESHOLD ≤ v) →
      (∀ v, props.stn_pres_qa = some v → cfg.MIN_QA_THRESHOLD ≤ v) →
      is_high_quality_data cfg SourceName.swob props = true) := by
  refine ⟨?_, ?_, ?_⟩
  · intro cfg name props h
    simp [is_high_quality_data, h]
  · intro cfg props v hf hv
    have hd : (decide (v < cfg.MIN_QA_THRESHOLD)) = true := decide_eq_true hv
    rcases hf with h | h | h <;>
      simp [is_high_quality_data, qa_passes, h, hd]
  · intro cfg props h1 h2 h3
    have e1 : qa_passes cfg props.air_temp_qa = true := by
      cases ha : props.air_temp_qa with
      | none => rfl
      | some v =>
        simp [qa_passes, decide_eq_false_iff_not.mpr (not_lt.mpr (h1 v ha))]
    have e2 : qa_passes cfg props.rel_hum_qa = true := by
      cases ha : props.rel_hum_qa with
      | none => rfl
      | some v =>
        simp [qa_passes, decide_eq_false_iff_not.mpr (not_lt.mpr (h2 v ha))]
    have e3 : qa_passes cfg props.stn_pres_qa = true := by
      cases ha : props.stn_pres_qa with
      | none => rfl
      | some v =>
        simp [qa_passes, decide_eq_false_iff_not.mpr (not_lt.mpr (h3 v ha))]
    simp [is_high_quality_data, e1, e2, e3]

/-- Witness for C7 at the defaults (threshold 0): a swob feature with a
code exactly 0 is accepted, one with -1 is rejected, one with the field
absent is accepted, and a hydrometric feature with a low code passes. -/
theorem flume_C7_witness :
    is_high_quality_data defaultConfig SourceName.swob
      { emptyProps with air_temp_qa := some 0 } = true ∧
    is_high_quality_data defaultConfig SourceName.swob
      { emptyProps with air_temp_qa := some (-1) } = false ∧
    is_high_quality_data defaultConfig SourceName.swob emptyProps = true ∧
    is_high_quality_data defaultConfig SourceName.hydrometric
      { emptyProps with air_temp_qa := some (-5) } = true := by
  refine ⟨?_, ?_, ?_, ?_⟩
  · exact flume_C7.2.2 defaultConfig _
      (fun v hv => by injection hv with h; subst h; decide)
      (fun v hv => by cases hv) (fun v hv => by cases hv)
  · exact flume_C7.2.1 defaultConfig _ (-1) (Or.inl rfl) (by decide)
  · exact flume_C7.2.2 defaultConfig _ (fun v hv => by cases hv)
      (fun v hv => by cases hv) (fun v hv => by cases hv)
  · exact flume_C7.1 defaultConfig SourceName.hydrometric _ (by decide)

/-- C8: timestamp parsing/validation is total and rejects by returning no
value: absent input, unparsable input, an instant more than
`MAX_FUTURE_DAYS` ahead of now, or more than 365 days in the past all
yield `none`; and in the loop such a feature only bumps the
timestamp-rejection counter, advancing no watermark. -/
theorem flume_C8 :
    (∀ (cfg : Config) (now : Int), parse_iso_to_utc cfg now none = none) ∧
    (∀ (cfg : Config) (now : Int),
      parse_iso_to_utc cfg now (some TStr.bad) = none) ∧
    (∀ (cfg : Config) (now t : Int), now + cfg.MAX_FUTURE_DAYS * 1440 < t →
      parse_iso_to_utc cfg now (some (TStr.iso t)) = none) ∧
    (∀ (cfg : Config) (now t : Int), t < now - 365 * 1440 →
      parse_iso_to_utc cfg now (some (TStr.iso t)) = none) ∧
    (∀ (cfg : Config) (now : Int) (name : SourceName) (ls : LoopState)
      (f : Feature), f.id ∉ ls.seen_ids →
      get_observation_timestamp cfg now name f.props = none →
      step cfg now name ls f = Except.ok { ls with
        seen_ids := f.id :: ls.seen_ids
        rejected_timestamp_count := ls.rejected_timestamp_count + 1 }) := by
  refine ⟨fun _ _ => rfl, fun _ _ => rfl, ?_, ?_, ?_⟩
  · intro cfg now t h
    have hv : validate_timestamp cfg now t = false := by
      unfold validate_timestamp
      rw [if_pos (by omega)]
    simp [parse_iso_to_utc, hv]
  · intro cfg now t h
    have hv : validate_timestamp cfg now t = false := by
      unfold validate_timestamp
      by_cases h1 : t > now + cfg.MAX_FUTURE_DAYS * 1440
      · rw [if_pos h1]
      · rw [if_neg h1, if_pos (by omega)]
    simp [parse_iso_to_utc, hv]
  · intro cfg now name ls f hd hobs
    exact step_ts_reject hd hobs

/-- Witness for C8 at the defaults: an observation dated 2 days ahead of
now (with `MAX_FUTURE_DAYS = 1`) parses to no value, and a feature with
no timestamp only increments the rejection counter of a fresh loop. -/
theorem flume_C8_witness :
    parse_iso_to_utc defaultConfig 1000000 (some (TStr.iso 1002880)) = none ∧
    step defaultConfig 1000000 SourceName.swob (initLoop [] 0) wNoTs =
      Except.ok { initLoop [] 0 with
        seen_ids := [some "w"]
        rejected_timestamp_count := 1 } := by
  constructor
  · exact flume_C8.2.2.1 defaultConfig 1000000 1002880 (by decide)
  · exact flume_C8.2.2.2.2 defaultConfig 1000000 SourceName.swob
      (initLoop [] 0) wNoTs (by simp [initLoop]) rfl

/-- C9: pagination completeness. On a well-formed page chain the fetch
returns exactly the concatenation of the `features` arrays of all pages,
in page order with within-page order preserved, following each `next`
link until none is present. The chain world answers a request only when
the query parameters are attached exactly on the start URL and on no
later page, so this also certifies that `next` links are followed as bare
URLs. -/
theorem flume_C9 (pss : List (List Feature)) (fuel : Nat)
    (hne : pss ≠ []) (hfuel : pss.length ≤ fuel) :
    fetch_features_with_paging (chainWorld pss) 0 fuel =
      some (Except.ok pss.flatten) := by
  have h0 : 0 < pss.length := List.length_pos.mpr hne
  have h := chainWorld_go pss fuel 0 [] h0 (by omega)
  simpa [fetch_features_with_paging] using h

/-- Witness for C9: a 3-page chain (two `next` links) yields the four
features of all three pages in order. -/
theorem flume_C9_witness :
    fetch_features_with_paging (chainWorld wPages) 0 5 =
      some (Except.ok
        [{ id := some "a", props := emptyProps },
         { id := some "b", props := emptyProps },
         { id := some "c", props := emptyProps },
         { id := some "d", props := emptyProps }]) := by
  rw [flume_C9 wPages 5 (by simp [wPages]) (by simp [wPages])]
  rfl

/-- C4, amended: an HTTP-status error on any page of a paginated fetch
makes `fetch_features_with_paging` return an empty list (never a
truncated partial set), while a non-HTTP transport failure on any page is
raised by the fetch; but the raised failure is caught inside
`process_endpoint` (lines 252-256), which returns the source's state
unchanged — it does not propagate to the orchestrator boundary. -/
theorem flume_C4 :
    (∀ (pss : List (List Feature)) (k fuel : Nat), k < pss.length →
      pss.length ≤ fuel →
      fetch_features_with_paging (chainWorldHttpErr pss k) 0 fuel =
        some (Except.ok [])) ∧
    (∀ (pss : List (List Feature)) (k fuel : Nat), k < pss.length →
      pss.length ≤ fuel →
      fetch_features_with_paging (chainWorldTransErr pss k) 0 fuel =
        some (Except.error ())) ∧
    (∀ (cfg : Config) (now : Int) (fetcher : Int → Except Unit (List Feature))
      (uploadOk : Bool) (name : SourceName) (st : SourceState) (s : Int),
      fetch_window_start cfg now name st = Except.ok s →
      fetcher s = Except.error () →
      process_endpoint cfg now fetcher uploadOk name st = Except.ok st) := by
  refine ⟨?_, ?_, ?_⟩
  · intro pss k fuel hk hfuel
    exact chainWorldHttpErr_go pss k fuel 0 [] (Nat.zero_le _) hk (by omega)
  · intro pss k fuel hk hfuel
    exact chainWorldTransErr_go pss k fuel 0 [] (Nat.zero_le _) hk (by omega)
  · intro cfg now fetcher uploadOk name st s hw hf
    exact process_endpoint_fetch_raise hw hf

/-- Counterexample to C4 as stated: a transport failure is raised by the
fetch, yet `process_endpoint` on a raising fetcher returns
`Except.ok` with the state unchanged — the failure does not propagate
out of the endpoint processor to the orchestrator. -/
theorem flume_C4_counterexample :
    fetch_features_with_paging (chainWorldTransErr wPages 1) 0 5 =
      some (Except.error ()) ∧
    process_endpoint defaultConfig 1000000 (fun _ => Except.error ()) true
      SourceName.swob emptySourceState = Except.ok emptySourceState ∧
    Except.ok emptySourceState ≠ (Except.error () : Except Unit SourceState) := by
  refine ⟨rfl, rfl, ?_⟩
  intro h
  cases h

/-- Witness for C4 (amended): page 1 of the 3-page chain erroring with an
HTTP status yields the empty result; the same page raising a transport
failure makes the fetch raise; and a raising fetcher leaves
`process_endpoint` returning the untouched state. -/
theorem flume_C4_witness :
    fetch_features_with_paging (chainWorldHttpErr wPages 1) 0 5 =
      some (Except.ok []) ∧
    fetch_features_with_paging (chainWorldTransErr wPages 2) 0 5 =
      some (Except.error ()) ∧
    process_endpoint defaultConfig 1000000 (fun _ => Except.error ()) true
      SourceName.hydrometric cxPrior = Except.ok cxPrior := by
  refine ⟨?_, ?_, ?_⟩
  · exact flume_C4.1 wPages 1 5 (by simp [wPages]) (by simp [wPages])
  · exact flume_C4.2.1 wPages 2 5 (by simp [wPages]) (by simp [wPages])
  · exact flume_C4.2.2 defaultConfig 1000000 (fun _ => Except.error ()) true
      SourceName.hydrometric cxPrior 998985 (by rfl) rfl

/-- C5: fatal isolation in the orchestrator. If processing one source
raises, the final state hands that source its pre-run snapshot, hands
every other source exactly what its own processing produced from its
own pre-run sub-state, and the single final persistence step is still
attempted with the merged state of all three sources. -/
theorem flume_C5 (cfg : Config) (now : Int) (ws wh wc : SourceWorld)
    (persistOk : Bool) (st0 : FullState) (b : SourceName)
    (hb : process_endpoint cfg now (worldOf ws wh wc b).fetcher
      (worldOf ws wh wc b).uploadOk b (getSub st0 b) = Except.error ()) :
    getSub (mainRun cfg now ws wh wc persistOk st0).1 b = getSub st0 b ∧
    (∀ (m : SourceName) (s : SourceState), m ≠ b →
      process_endpoint cfg now (worldOf ws wh wc m).fetcher
        (worldOf ws wh wc m).uploadOk m (getSub st0 m) = Except.ok s →
      getSub (mainRun cfg now ws wh wc persistOk st0).1 m = s) ∧
    (mainRun cfg now ws wh wc persistOk st0).2 = persistOk := by
  refine ⟨?_, ?_, rfl⟩
  · show getSub (mainAttempt cfg now ws wh wc st0) b = getSub st0 b
    rw [mainAttempt_sub]
    unfold runSource
    rw [hb]
  · intro m s hm hok
    show getSub (mainAttempt cfg now ws wh wc st0) m = s
    rw [mainAttempt_sub]
    unfold runSource
    rw [hok]

/-- Witness for C5: the hydrometric sub-state carries an unparsable
watermark string, so its processing raises while deriving the fetch
window; swob and climate-hourly run empty fetches; the attempted final
state keeps the broken hydrometric snapshot and the two fresh results. -/
theorem flume_C5_witness :
    getSub (mainRun defaultConfig 1000000 wEmptyWorld wEmptyWorld wEmptyWorld
      true st0Witness).1 SourceName.hydrometric = stBroken ∧
    (∀ (m : SourceName) (s : SourceState), m ≠ SourceName.hydrometric →
      process_endpoint defaultConfig 1000000
        (worldOf wEmptyWorld wEmptyWorld wEmptyWorld m).fetcher
        (worldOf wEmptyWorld wEmptyWorld wEmptyWorld m).uploadOk m
        (getSub st0Witness m) = Except.ok s →
      getSub (mainRun defaultConfig 1000000 wEmptyWorld wEmptyWorld wEmptyWorld
        true st0Witness).1 m = s) ∧
    (mainRun defaultConfig 1000000 wEmptyWorld wEmptyWorld wEmptyWorld
      true st0Witness).2 = true := by
  have h := flume_C5 defaultConfig 1000000 wEmptyWorld wEmptyWorld wEmptyWorld
    true st0Witness SourceName.hydrometric rfl
  exact ⟨h.1, fun m s hm hok => h.2.1 m s hm hok, h.2.2⟩

/-- C10: intra-batch deduplication keys on the raw feature id, so all
id-less features share the key `none`: once some id-less feature has
appeared in the batch, any later id-less feature is dropped entirely —
the loop behaves as if it were not in the batch — even when it is a
distinct observation from a distinct station. -/
theorem flume_C10 (cfg : Config) (now : Int) (name : SourceName)
    (ls : LoopState) (B1 B2 : List Feature) (f : Feature)
    (hf : f.id = none) (hg : ∃ g ∈ B1, g.id = none) :
    processFeatures cfg now name ls (B1 ++ f :: B2) =
      processFeatures cfg now name ls (B1 ++ B2) := by
  induction B1 generalizing ls with
  | nil =>
    obtain ⟨g, hg1, _⟩ := hg
    cases hg1
  | cons b B1 ih =>
    obtain ⟨g, hgmem, hgid⟩ := hg
    simp only [List.cons_append, processFeatures]
    cases hs : step cfg now name ls b with
    | error e => rfl
    | ok ls1 =>
      rcases List.mem_cons.mp hgmem with hgb | hgB1
      · have hbid : b.id = none := hgb ▸ hgid
        have hmem : f.id ∈ ls1.seen_ids := by
          rw [hf, ← hbid]
          exact step_self_mem hs
        exact processFeatures_skip B1 B2 ls1 hmem
      · exact ih ls1 ⟨g, hgB1, hgid⟩

/-- Witness for C10: a batch of two id-less features from distinct
stations S1 and S2 behaves exactly as the batch without the second one. -/
theorem flume_C10_witness :
    wNoId2.id = none ∧ (∃ g ∈ [wNoId1], g.id = none) ∧
    processFeatures defaultConfig 500100 SourceName.hydrometric
      (initLoop [] 499000) ([wNoId1] ++ wNoId2 :: []) =
      processFeatures defaultConfig 500100 SourceName.hydrometric
        (initLoop [] 499000) ([wNoId1] ++ []) := by
  refine ⟨rfl, ⟨wNoId1, by simp, rfl⟩, ?_⟩
  exact flume_C10 defaultConfig 500100 SourceName.hydrometric
    (initLoop [] 499000) [wNoId1] [] wNoId2 rfl ⟨wNoId1, by simp, rfl⟩

/-- C3: inclusion is strictly-greater-than. (a) A feature at or before its
station's valid watermark is never included and never moves the
per-station map, regardless of quality. (b) Re-processing an overlap
window in which every timestamp-valid feature is at or before its
station's valid watermark yields zero new inclusions and an unchanged
per-station map (idempotence). (c) A quality-passing feature strictly
after watermark `T` is included in the first window and, redelivered in a
second overlapping window, is not included again: exactly once in total. -/
theorem flume_C3 :
    (∀ (cfg : Config) (now : Int) (name : SourceName) (ls : LoopState)
      (f : Feature) (T t : Int),
      f.id ∉ ls.seen_ids →
      get_observation_timestamp cfg now name f.props = some t →
      List.lookup (get_station_id name f.props f.id) ls.per_station =
        some (TStr.iso T) →
      validate_timestamp cfg now T = true →
      t ≤ T →
      ∃ ls', step cfg now name ls f = Except.ok ls' ∧
        ls'.new_features = ls.new_features ∧
        ls'.per_station = ls.per_station) ∧
    (∀ (cfg : Config) (now : Int) (name : SourceName)
      (ps : List (String × TStr)) (s : Int) (fs : List Feature),
      (∀ f ∈ fs, ∀ t,
        get_observation_timestamp cfg now name f.props = some t →
        ∃ T, List.lookup (get_station_id name f.props f.id) ps =
            some (TStr.iso T) ∧
          validate_timestamp cfg now T = true ∧ t ≤ T) →
      ∃ ls', processFeatures cfg now name (initLoop ps s) fs = Except.ok ls' ∧
        ls'.new_features = [] ∧ ls'.per_station = ps) ∧
    (∀ (cfg : Config) (now : Int) (name : SourceName)
      (ps : List (String × TStr)) (s1 s2 : Int) (k : String) (T t : Int)
      (f : Feature),
      get_station_id name f.props f.id = k →
      ¬(k = "") →
      get_observation_timestamp cfg now name f.props = some t →
      List.lookup k ps = some (TStr.iso T) →
      validate_timestamp cfg now T = true →
      T < t →
      is_high_quality_data cfg name f.props = true →
      ∃ ls1 ls2,
        processFeatures cfg now name (initLoop ps s1) [f] = Except.ok ls1 ∧
        ls1.new_features = [f] ∧
        List.lookup k ls1.per_station = some (TStr.iso t) ∧
        processFeatures cfg now name (initLoop ls1.per_station s2) [f] =
          Except.ok ls2 ∧
        ls2.new_features = []) := by
  refine ⟨?_, ?_, ?_⟩
  · intro cfg now name ls f T t hd hobs hT hvT hle
    obtain ⟨ls', h1, h2, h3, _, _⟩ := step_skip_old hd hobs hT hvT hle
    exact ⟨ls', h1, h2, h3⟩
  · intro cfg now name ps s fs hfs
    obtain ⟨ls', h1, h2, h3⟩ := @processFeatures_noNew cfg now name fs
      (initLoop ps s) (fun f hf t ht => hfs f hf t ht)
    refine ⟨ls', h1, ?_, h3⟩
    rw [h2]
    simp [initLoop]
  · intro cfg now name ps s1 s2 k T t f hk hknz hobs hT hvT hgt hq
    exact two_window_once hk hknz hobs hT hvT hgt hq

/-- Witness for C3: on station "A" with watermark 500000, a feature at
499990 is skipped; a one-feature overlap batch at or below the watermark
includes nothing; and a feature at 500010 is included in a first window
and not re-included when redelivered in a second overlapping window. -/
theorem flume_C3_witness :
    (∃ ls', step defaultConfig 500100 SourceName.hydrometric
        (initLoop wPS 499985) wOld = Except.ok ls' ∧
      ls'.new_features = (initLoop wPS 499985).new_features ∧
      ls'.per_station = (initLoop wPS 499985).per_station) ∧
    (∃ ls', processFeatures defaultConfig 500100 SourceName.hydrometric
        (initLoop wPS 499985) [wOld] = Except.ok ls' ∧
      ls'.new_features = [] ∧ ls'.per_station = wPS) ∧
    (∃ ls1 ls2,
      processFeatures defaultConfig 500100 SourceName.hydrometric
        (initLoop wPS 499985) [wNew] = Except.ok ls1 ∧
      ls1.new_features = [wNew] ∧
      List.lookup "A" ls1.per_station = some (TStr.iso 500010) ∧
      processFeatures defaultConfig 500100 SourceName.hydrometric
        (initLoop ls1.per_station 499995) [wNew] = Except.ok ls2 ∧
      ls2.new_features = []) := by
  refine ⟨?_, ?_, ?_⟩
  · exact flume_C3.1 defaultConfig 500100 SourceName.hydrometric
      (initLoop wPS 499985) wOld 500000 499990 (by simp [initLoop]) rfl rfl
      (by decide) (by decide)
  · refine flume_C3.2.1 defaultConfig 500100 SourceName.hydrometric wPS 499985
      [wOld] ?_
    intro f hf t ht
    have hfeq : f = wOld := by
      cases hf with
      | head => rfl
      | tail _ h => cases h
    subst hfeq
    have ht' : (some (499990 : Int)) = some t := ht
    injection ht' with h
    subst h
    exact ⟨500000, rfl, by decide, by decide⟩
  · exact flume_C3.2.2 defaultConfig 500100 SourceName.hydrometric wPS 499985
      499995 "A" 500000 500010 wNew rfl (by decide) rfl rfl (by decide)
      (by decide) rfl

/-- Counterexample to C1 as stated: starting from global watermark
999000, a non-empty fetched batch whose only feature is
timestamp-rejected makes `process_endpoint` write global watermark
998985 = 999000 - 15, which is strictly below the prior watermark. -/
theorem flume_C1_counterexample :
    cxPrior.global_last_processed_dt = some (TStr.iso 999000) ∧
    globalOf cxRun = some (TStr.iso 998985) ∧
    ¬((999000 : Int) ≤ 998985) := by
  refine ⟨rfl, ?_, by decide⟩
  rfl

/-- C1, amended: the watermark written for a prior global watermark `W`
is not always `>= W`; it is `>= W - INCREMENTAL_OVERLAP_MIN` (the
fetch-window start), because `max_seen_dt` is initialised to the window
start and only accepted observations can raise it above that. Whenever
`process_endpoint` does not raise, the written (or retained) global
watermark is at least `W - INCREMENTAL_OVERLAP_MIN`. -/
theorem flume_C1 (cfg : Config) (now : Int) (name : SourceName)
    (fetcher : Int → Except Unit (List Feature)) (uploadOk : Bool)
    (st : SourceState) (W : Int)
    (hov : 0 ≤ cfg.INCREMENTAL_OVERLAP_MIN)
    (hW : st.global_last_processed_dt = some (TStr.iso W))
    (hvW : validate_timestamp cfg now W = true) :
    process_endpoint cfg now fetcher uploadOk name st = Except.error () ∨
    ∃ g, globalOf (process_endpoint cfg now fetcher uploadOk name st) =
        some (TStr.iso g) ∧
      W - cfg.INCREMENTAL_OVERLAP_MIN ≤ g := by
  have hw : fetch_window_start cfg now name st =
      Except.ok (W - cfg.INCREMENTAL_OVERLAP_MIN) := by
    simp [fetch_window_start, hW, parse_iso_of_validate hvW]
  cases hf : fetcher (W - cfg.INCREMENTAL_OVERLAP_MIN) with
  | error e =>
    cases e
    right
    rw [process_endpoint_fetch_raise hw hf]
    refine ⟨W, ?_, by omega⟩
    simp only [globalOf]
    exact hW
  | ok feats =>
    by_cases hemp : feats.isEmpty = true
    · right
      refine ⟨W, ?_, by omega⟩
      simp only [process_endpoint, hw, hf, if_pos hemp, globalOf]
      exact hW
    · cases hloop : processFeatures cfg now name
        (initLoop st.per_station (W - cfg.INCREMENTAL_OVERLAP_MIN)) feats with
      | error e =>
        cases e
        left
        simp only [process_endpoint, hw, hf, if_neg hemp, hloop]
      | ok ls =>
        by_cases hup : (!ls.new_features.isEmpty && !uploadOk) = true
        · left
          simp only [process_endpoint, hw, hf, if_neg hemp, hloop, if_pos hup]
        · right
          refine ⟨ls.max_seen, ?_, ?_⟩
          · simp only [process_endpoint, hw, hf, if_neg hemp, hloop,
              if_neg hup, globalOf]
          · have hm := processFeatures_max_le hloop
            simp only [initLoop] at hm
            omega

/-- Witness for C1 (amended) at the counterexample input: the run does
not raise and its written watermark 998985 is at least 999000 - 15. -/
theorem flume_C1_witness :
    cxRun = Except.error () ∨
    ∃ g, globalOf cxRun = some (TStr.iso g) ∧
      999000 - defaultConfig.INCREMENTAL_OVERLAP_MIN ≤ g :=
  flume_C1 defaultConfig 1000000 SourceName.hydrometric
    (fun _ => Except.ok [cxBadFeat]) true cxPrior 999000 (by decide) rfl
    (by decide)

/-- Counterexample to C2 as stated: a pre-state satisfying the invariant
(station "B" at 800000, global 800000) is taken by a run whose only
feature is timestamp-rejected to a state with station "B" still at
800000 but global regressed to 799985: `per_station["B"] <=
global_last_processed_dt` no longer holds. -/
theorem flume_C2_counterexample :
    (List.lookup "B" cx2Prior.per_station = some (TStr.iso 800000) ∧
      cx2Prior.global_last_processed_dt = some (TStr.iso 800000)) ∧
    globalOf cx2Run = some (TStr.iso 799985) ∧
    List.lookup "B" (perStationOf cx2Run) = some (TStr.iso 800000) ∧
    ¬((800000 : Int) ≤ 799985) := by
  refine ⟨⟨rfl, rfl⟩, ?_, ?_, by decide⟩
  · rfl
  · rfl

/-- C2, amended: after a non-raising run from a state satisfying the
invariant against prior global watermark `W`, every parseable per-station
watermark is at most `max W g` where `g` is the new global watermark.
The unqualified invariant `per_station[k] <= global_last_processed_dt`
fails exactly when the written global regresses below `W` (by up to the
overlap buffer) past a station that had reached `W`. -/
theorem flume_C2 (cfg : Config) (now : Int) (name : SourceName)
    (fetcher : Int → Except Unit (List Feature)) (uploadOk : Bool)
    (st : SourceState) (W : Int)
    (hW : st.global_last_processed_dt = some (TStr.iso W))
    (hvW : validate_timestamp cfg now W = true)
    (hinv : ∀ k t, List.lookup k st.per_station = some (TStr.iso t) → t ≤ W) :
    process_endpoint cfg now fetcher uploadOk name st = Except.error () ∨
    ∃ g, globalOf (process_endpoint cfg now fetcher uploadOk name st) =
        some (TStr.iso g) ∧
      ∀ k t, List.lookup k (perStationOf
          (process_endpoint cfg now fetcher uploadOk name st)) =
          some (TStr.iso t) →
        t ≤ max W g := by
  have hw : fetch_window_start cfg now name st =
      Except.ok (W - cfg.INCREMENTAL_OVERLAP_MIN) := by
    simp [fetch_window_start, hW, parse_iso_of_validate hvW]
  cases hf : fetcher (W - cfg.INCREMENTAL_OVERLAP_MIN) with
  | error e =>
    cases e
    right
    rw [process_endpoint_fetch_raise hw hf]
    refine ⟨W, ?_, ?_⟩
    · simp only [globalOf]
      exact hW
    · intro k t h
      simp only [perStationOf] at h
      exact le_trans (hinv k t h) (le_max_left W W)
  | ok feats =>
    by_cases hemp : feats.isEmpty = true
    · right
      refine ⟨W, ?_, ?_⟩
      · simp only [process_endpoint, hw, hf, if_pos hemp, globalOf]
        exact hW
      · intro k t h
        simp only [process_endpoint, hw, hf, if_pos hemp, perStationOf] at h
        exact le_trans (hinv k t h) (le_max_left W W)
    · cases hloop : processFeatures cfg now name
        (initLoop st.per_station (W - cfg.INCREMENTAL_OVERLAP_MIN)) feats with
      | error e =>
        cases e
        left
        simp only [process_endpoint, hw, hf, if_neg hemp, hloop]
      | ok ls =>
        by_cases hup : (!ls.new_features.isEmpty && !uploadOk) = true
        · left
          simp only [process_endpoint, hw, hf, if_neg hemp, hloop, if_pos hup]
        · right
          refine ⟨ls.max_seen, ?_, ?_⟩
          · simp only [process_endpoint, hw, hf, if_neg hemp, hloop,
              if_neg hup, globalOf]
          · intro k t h
            simp only [process_endpoint, hw, hf, if_neg hemp, hloop,
              if_neg hup, perStationOf] at h
            have hb := processFeatures_station_bound (B := W) hloop
              (fun k' t' h' => Or.inl (hinv k' t' h'))
            rcases hb k t h with h1 | h2
            · exact le_trans h1 (le_max_left W ls.max_seen)
            · exact le_trans h2 (le_max_right W ls.max_seen)

/-- Witness for C2 (amended) at the counterexample input: the run does
not raise, and station "B" at 800000 is within `max W g` for the new
global watermark `g = 799985`. -/
theorem flume_C2_witness :
    cx2Run = Except.error () ∨
    ∃ g, globalOf cx2Run = some (TStr.iso g) ∧
      ∀ k t, List.lookup k (perStationOf cx2Run) = some (TStr.iso t) →
        t ≤ max 800000 g :=
  flume_C2 defaultConfig 810000 SourceName.swob
    (fun _ => Except.ok [cx2BadFeat]) true cx2Prior 800000 rfl
    (by decide)
    (fun k t h => by
      have h' : List.lookup k [("B", TStr.iso 800000)] = some (TStr.iso t) := h
      rw [lookup_cons_prop] at h'
      by_cases hk : k = "B"
      · rw [if_pos hk] at h'
        injection h' with h2
        injection h2 with h3
        omega
      · rw [if_neg hk] at h'
        cases h')

end Flume
